import Mathlib

/-!
Verification of the Tkinter text editor in src/text_editor.py.

The editor is a single `TextEditor` class over a Tk text widget.  The
shallow embedding below models the document state of the program (buffer
text, current filename, modified flag, the "found" highlight-tag ranges,
insert-mark position) together with the two pieces of toolkit behaviour
the program depends on:

* The Tk text widget always keeps one implicit final newline.  Reading
  the whole buffer with text.get("1.0", tk.END) therefore yields the
  logical content followed by one extra "\n"; deleting with
  text.delete("1.0", tk.END) clears the logical content but never the
  implicit newline, and inserting at tk.END places text before it.
  We store the logical content (what text.get("1.0", "end-1c") would
  return) in the state and write widgetText for the get("1.0", END) view.

* The widget maintains an internal edit-modified flag.  Per the Tk text
  manual, insert and delete set the flag, and a <<Modified>> virtual
  event is generated whenever the flag changes state -- including when
  it is cleared programmatically with edit_modified(False).  The handler
  _on_modified (src lines 48-52) copies the widget flag into
  self.modified and then rearms with self.text.edit_modified(False);
  clearing a set flag generates <<Modified>> again, so the handler runs
  a second time and copies the now-clear flag into self.modified.

Dialog results are passed as parameters: none models a dismissed dialog
(askstring/askinteger return None; the filename dialogs return an empty
string, modelled as some "").  File input and output is modelled by a
small file-system value; read failure (missing file, permission, decode
error) and write failure are the cases in which the Python code raises.
-/

/-! ### Python string primitives -/

/-- Case-sensitive test that `pat` is a prefix of `l`. -/
def startsWithLit : List Char → List Char → Bool
  | [], _ => true
  | _ :: _, [] => false
  | a :: as, b :: bs => a == b && startsWithLit as bs

/-- Case-insensitive prefix test, folding both sides with Char.toLower
(the nocase=1 comparison of the Tk search command). -/
def startsWithCI : List Char → List Char → Bool
  | [], _ => true
  | _ :: _, [] => false
  | a :: as, b :: bs => (a.toLower == b.toLower) && startsWithCI as bs

/-- Case-sensitive substring occurrence test: does `pat` occur in `l`. -/
def occursSub : List Char → List Char → Bool
  | [], pat => pat.isEmpty
  | h :: t, pat => startsWithLit pat (h :: t) || occursSub t pat

/-- One pass of Python str.replace on character lists: scan left to
right, replace each non-overlapping occurrence of `f` by `r`.  The fuel
argument (instantiated with the length of the haystack, which is enough
because every step consumes at least one character) only makes the
recursion structural.  Faithful to Python semantics for nonempty `f`;
the program only calls it under the guard `if find` (src line 142). -/
def pyReplaceGo (f r : List Char) : Nat → List Char → List Char
  | _, [] => []
  | 0, h :: t => h :: t
  | fuel + 1, h :: t =>
    if startsWithLit f (h :: t) then r ++ pyReplaceGo f r fuel (t.drop (f.length - 1))
    else h :: pyReplaceGo f r fuel t

/-- Python content.replace(find, replace) (src line 144), for nonempty find. -/
def pyReplace (hay f r : String) : String :=
  ⟨pyReplaceGo f.data r.data hay.data.length hay.data⟩

/-- The search loop of `_find` (src lines 129-136): repeatedly call
text.search(term, idx, nocase=1, stopindex=END), tag the match from idx
to idx+len(term) chars, and resume at the end of the match.  Returns the
tagged ranges as half-open character-offset intervals.  Fuel as in
pyReplaceGo; the program guards term nonempty (src line 127). -/
def findOccsGo (nd : List Char) : Nat → List Char → Nat → List (Nat × Nat)
  | _, [], _ => []
  | 0, _ :: _, _ => []
  | fuel + 1, h :: t, i =>
    if startsWithCI nd (h :: t) then
      (i, i + nd.length) :: findOccsGo nd fuel (t.drop (nd.length - 1)) (i + nd.length)
    else findOccsGo nd fuel t (i + 1)

/-- All ranges tagged "found" by the `_find` loop on haystack `hay`. -/
def findOccs (hay nd : String) : List (Nat × Nat) :=
  findOccsGo nd.data hay.data.length hay.data 0

/-- Character offset of the start of 1-based line (k+1) inside a
character list, clamped to the end of the text (Tk clamps out-of-range
indices such as "{line}.0" for a too-large line to the end). -/
def lineStartGo : List Char → Nat → Nat
  | _, 0 => 0
  | [], _ + 1 => 0
  | c :: cs, k + 1 => if c = '\n' then 1 + lineStartGo cs k else 1 + lineStartGo cs (k + 1)

/-! ### File-system model -/

/-- Association-list lookup for disk contents. -/
def lookupFile : List (String × String) → String → Option String
  | [], _ => none
  | (q, v) :: rest, p => if q = p then some v else lookupFile rest p

/-- Association-list update for disk contents. -/
def setFile : List (String × String) → String → String → List (String × String)
  | [], p, v => [(p, v)]
  | (q, w) :: rest, p, v => if q = p then (p, v) :: rest else (q, w) :: setFile rest p v

/-- The file system the editor talks to.  `files` maps a path to the
decoded UTF-8 text of the file; a path absent from `files` is one where
open(path) or read()/decode raises.  `failWrite` lists the paths where
open(path, "w") or write()/encode raises (permissions and the like). -/
structure FS where
  files : List (String × String)
  failWrite : List String
deriving DecidableEq

/-- Reading a whole file as UTF-8 text; none models a raised exception. -/
def FS.read (fs : FS) (p : String) : Option String :=
  lookupFile fs.files p

/-- Unconditional disk update (the successful branch of a write). -/
def FS.store (fs : FS) (p v : String) : FS :=
  { fs with files := setFile fs.files p v }

/-- Writing a whole file as UTF-8 text; none models a raised exception. -/
def FS.write (fs : FS) (p v : String) : Option FS :=
  if p ∈ fs.failWrite then none else some (fs.store p v)

/-! ### Editor state and the Tk text widget -/

/-- The document state of the TextEditor instance.  `content` is the
logical buffer text, i.e. text.get("1.0", "end-1c"): the widget view
text.get("1.0", tk.END) is `content ++ "\n"` because of the implicit
final newline.  `modified` is self.modified; `widgetModified` is the
edit-modified flag of the text widget (false whenever the event queue is
drained, since `_on_modified` always rearms it).  `foundTags` holds the
ranges carrying the "found" highlight tag, as half-open character-offset
intervals into the widget view.  `cursor` approximates the insert mark
as a character offset. -/
structure EditorState where
  content : String
  filename : Option String
  modified : Bool
  widgetModified : Bool
  foundTags : List (Nat × Nat)
  cursor : Nat
deriving DecidableEq

/-- text.get("1.0", tk.END): the logical content plus the implicit
final newline of the Tk text widget. -/
def widgetText (s : EditorState) : String :=
  s.content ++ "\n"

/-- One invocation of the body of `_on_modified` (src lines 48-52) up to
the rearm: self.modified = self.text.edit_modified(), then the redraws
(no document-state effect). -/
def onModifiedOnce (s : EditorState) : EditorState :=
  { s with modified := s.widgetModified }

/-- Full processing of one generated <<Modified>> event.  The handler
body runs, then self.text.edit_modified(False) rearms: per the Tk text
manual a <<Modified>> event is generated whenever the flag changes
state, so clearing a set flag runs the handler once more.  That second
run reads the now-clear flag, and its own edit_modified(False) changes
nothing, so no third event is generated. -/
def _on_modified (s : EditorState) : EditorState :=
  let s1 := onModifiedOnce s
  if s1.widgetModified then onModifiedOnce { s1 with widgetModified := false }
  else s1

/-- A text mutation (insert or delete) as seen by the event system: the
widget sets its edit-modified flag, and <<Modified>> is generated only
if the flag actually changed. -/
def notifyModified (s : EditorState) : EditorState :=
  if s.widgetModified then s
  else _on_modified { s with widgetModified := true }

/-- self.text.delete(1.0, tk.END): clears the logical content (the
implicit final newline is never deleted), removes every tag range on the
deleted text, and moves the insert mark to the start.  On an already
empty buffer nothing is deleted and no event fires. -/
def textDeleteAll (s : EditorState) : EditorState :=
  if s.content = "" then s
  else notifyModified { s with content := "", foundTags := [], cursor := 0 }

/-- self.text.insert(tk.END, t): inserts `t` before the implicit final
newline.  Inserting the empty string changes nothing and fires no
event. -/
def textInsertEnd (t : String) (s : EditorState) : EditorState :=
  if t = "" then s
  else notifyModified { s with content := s.content ++ t, cursor := s.content.length + t.length }

/-- A single user keystroke that edits the buffer (character insertion
or deletion).  The resulting text, tag ranges (Tk shifts ranges along
with the surrounding text) and insert-mark position are parameters; the
modification event fires exactly as for any widget text change. -/
def userEdit (newContent : String) (newTags : List (Nat × Nat)) (newCursor : Nat)
    (s : EditorState) : EditorState :=
  notifyModified { s with content := newContent, foundTags := newTags, cursor := newCursor }

/-- The state right after TextEditor.__init__ (src lines 12-22): empty
buffer, no filename, modified flag clear, widget flag clear. -/
def initState : EditorState :=
  { content := "", filename := none, modified := false, widgetModified := false,
    foundTags := [], cursor := 0 }

/-! ### The menu operations (src lines 91-152) -/

/-- `_new_file` (src lines 91-95): self.filename = None;
self.text.delete(1.0, tk.END); self.modified = False. -/
def _new_file (s : EditorState) : EditorState :=
  let s1 := { s with filename := none }
  let s2 := textDeleteAll s1
  { s2 with modified := false }

/-- `_open_file` (src lines 97-108).  `dlg` is the result of
filedialog.askopenfilename(); the guard `if path` skips an absent or
empty result.  On a chosen path the file is read (a raised exception is
the error case), the buffer is replaced, the path is adopted, the
modified flag cleared and the insert mark moved to the end. -/
def _open_file (fs : FS) (dlg : Option String) (s : EditorState) : Except String EditorState :=
  match dlg with
  | none => .ok s
  | some path =>
    if path = "" then .ok s
    else
      match fs.read path with
      | none => .error path
      | some data =>
        let s1 := textDeleteAll s
        let s2 := textInsertEnd data s1
        .ok { s2 with filename := some path, modified := false, cursor := s2.content.length }

/-- The known-path branch of `_save_file` (src lines 111-115): write
text.get(1.0, tk.END) to the path (a raised exception is the error
case) and clear the modified flag. -/
def saveTo (fs : FS) (path : String) (s : EditorState) : Except String (FS × EditorState) :=
  match fs.write path (widgetText s) with
  | none => .error path
  | some fs2 => .ok (fs2, { s with modified := false })

/-- `_save_file_as` (src lines 119-123).  `dlg` is the result of
filedialog.asksaveasfilename(); the guard `if path` skips an absent or
empty result.  On a chosen path it is adopted as self.filename and
`_save_file` runs, which then takes its known-path branch. -/
def _save_file_as (fs : FS) (dlg : Option String) (s : EditorState) : Except String (FS × EditorState) :=
  match dlg with
  | none => .ok (fs, s)
  | some path =>
    if path = "" then .ok (fs, s)
    else saveTo fs path { s with filename := some path }

/-- `_save_file` (src lines 110-117): with a known path, write the
buffer there; otherwise fall through to `_save_file_as` with the
destination dialog result `dlg`. -/
def _save_file (fs : FS) (dlg : Option String) (s : EditorState) : Except String (FS × EditorState) :=
  match s.filename with
  | some path => saveTo fs path s
  | none => _save_file_as fs dlg s

/-- `_find` (src lines 125-137).  `dlg` is the simpledialog.askstring
result; the guard `if term` skips an absent or empty term.  Otherwise
the "found" tag is removed everywhere and the search loop re-tags every
case-insensitive occurrence, resuming after each match.  Tag operations
fire no modification event, and nothing else in the state changes. -/
def _find (dlg : Option String) (s : EditorState) : EditorState :=
  match dlg with
  | none => s
  | some term =>
    if term = "" then s
    else { s with foundTags := findOccs (widgetText s) term }

/-- `_replace` (src lines 139-146).  Runs only when the find term is
truthy (nonempty) and the replace term is not None.  It then takes
content = text.get(1.0, tk.END), applies content.replace(find, replace),
deletes the whole buffer and inserts the result before the implicit
final newline. -/
def _replace (fnd rpl : Option String) (s : EditorState) : EditorState :=
  match fnd, rpl with
  | some f, some r =>
    if f = "" then s
    else textInsertEnd (pyReplace (widgetText s) f r) (textDeleteAll s)
  | _, _ => s

/-- `_goto_line` (src lines 148-152).  `dlg` is the
simpledialog.askinteger result; the guard `if line` skips an absent
answer and the answer 0.  Otherwise the insert mark moves to the start
of the requested 1-based line (clamped by Tk to the valid range). -/
def _goto_line (dlg : Option Int) (s : EditorState) : EditorState :=
  match dlg with
  | none => s
  | some n =>
    if n = 0 then s
    else { s with cursor := lineStartGo (widgetText s).data ((max 1 n).toNat - 1) }

/-! ### The key bindings (src lines 38-46) -/

/-- A key chord bound in `_setup_keybindings`, carrying the answers the
user gives to the dialogs the bound handler opens (none models a
dismissed dialog). -/
inductive Event where
  | ctrlN
  | ctrlE (dlg : Option String)
  | ctrlS (dlg : Option String)
  | ctrlShiftS (dlg : Option String)
  | ctrlQ
  | ctrlF (dlg : Option String)
  | ctrlH (fnd rpl : Option String)
  | ctrlL (dlg : Option Int)
deriving DecidableEq

/-- One key chord dispatched by the bindings of src lines 38-46.  The
result is the file system, the editor state, and whether the main loop
is still running: Control-q is bound to self.quit(), which only ends the
main loop -- it opens no dialog, writes nothing, and leaves the whole
editor state as it is. -/
def step (fs : FS) (s : EditorState) : Event → Except String (FS × EditorState × Bool)
  | .ctrlN => .ok (fs, _new_file s, true)
  | .ctrlE dlg => (_open_file fs dlg s).map fun s2 => (fs, s2, true)
  | .ctrlS dlg => (_save_file fs dlg s).map fun p => (p.1, p.2, true)
  | .ctrlShiftS dlg => (_save_file_as fs dlg s).map fun p => (p.1, p.2, true)
  | .ctrlQ => .ok (fs, s, false)
  | .ctrlF dlg => .ok (fs, _find dlg s, true)
  | .ctrlH fnd rpl => .ok (fs, _replace fnd rpl s, true)
  | .ctrlL dlg => .ok (fs, _goto_line dlg s, true)

/-- Test harness composing Open with an immediate Save on the same file
system: returns the resulting file system when both succeed. -/
def openThenSave (fs : FS) (p : String) (s : EditorState) : Option FS :=
  match _open_file fs (some p) s with
  | .error _ => none
  | .ok s1 =>
    match _save_file fs none s1 with
    | .error _ => none
    | .ok (fs2, _) => some fs2

/-- Whether an operation raised (the exception leaves the operation
uncaught; callers of the model observe it as the error case). -/
def isErr {α : Type} (e : Except String α) : Bool :=
  match e with
  | .error _ => true
  | .ok _ => false

/-! ### Concrete states used by the claim theorems -/

/-- A buffer holding "foofoo baz foo" in an otherwise fresh editor. -/
def exampleReplaceState : EditorState :=
  { content := "foofoo baz foo", filename := none, modified := false, widgetModified := false,
    foundTags := [], cursor := 0 }

/-- A buffer holding "xabcxabc" in an otherwise fresh editor. -/
def exampleFindState : EditorState :=
  { content := "xabcxabc", filename := none, modified := false, widgetModified := false,
    foundTags := [], cursor := 0 }

/-- A buffer holding "hello" with one "found" highlight range. -/
def exampleNoOccState : EditorState :=
  { content := "hello", filename := none, modified := false, widgetModified := false,
    foundTags := [(0, 1)], cursor := 0 }

/-- A fresh editor whose current path is "f". -/
def exampleNamedState : EditorState :=
  { initState with filename := some "f" }

/-! ### Support lemmas -/

theorem notifyModified_eq (s : EditorState) (h : s.widgetModified = false) :
    notifyModified s = { s with modified := false } := by
  cases s
  simp_all [notifyModified, _on_modified, onModifiedOnce]

theorem notifyModified_content (s : EditorState) : (notifyModified s).content = s.content := by
  unfold notifyModified _on_modified onModifiedOnce
  split <;> rfl

theorem notifyModified_filename (s : EditorState) : (notifyModified s).filename = s.filename := by
  unfold notifyModified _on_modified onModifiedOnce
  split <;> rfl

theorem notifyModified_foundTags (s : EditorState) :
    (notifyModified s).foundTags = s.foundTags := by
  unfold notifyModified _on_modified onModifiedOnce
  split <;> rfl

theorem textDeleteAll_content (s : EditorState) : (textDeleteAll s).content = "" := by
  by_cases h : s.content = ""
  · simp [textDeleteAll, h]
  · simp [textDeleteAll, h, notifyModified_content]

theorem textDeleteAll_filename (s : EditorState) :
    (textDeleteAll s).filename = s.filename := by
  by_cases h : s.content = ""
  · simp [textDeleteAll, h]
  · simp [textDeleteAll, h, notifyModified_filename]

theorem textDeleteAll_foundTags (s : EditorState) (h : s.content ≠ "") :
    (textDeleteAll s).foundTags = [] := by
  simp [textDeleteAll, h, notifyModified_foundTags]

theorem notifyModified_modified (s : EditorState) (h : s.widgetModified = false) :
    (notifyModified s).modified = false := by
  rw [notifyModified_eq s h]

theorem notifyModified_widgetModified (s : EditorState) (h : s.widgetModified = false) :
    (notifyModified s).widgetModified = false := by
  rw [notifyModified_eq s h]
  exact h

theorem textDeleteAll_widgetModified (s : EditorState) (h : s.widgetModified = false) :
    (textDeleteAll s).widgetModified = false := by
  by_cases hc : s.content = ""
  · simp [textDeleteAll, hc, h]
  · rw [textDeleteAll, if_neg hc]
    exact notifyModified_widgetModified _ h

theorem textInsertEnd_content (t : String) (s : EditorState) :
    (textInsertEnd t s).content = s.content ++ t := by
  by_cases h : t = ""
  · simp [textInsertEnd, h, String.append_empty]
  · simp [textInsertEnd, h, notifyModified_content]

theorem textInsertEnd_filename (t : String) (s : EditorState) :
    (textInsertEnd t s).filename = s.filename := by
  by_cases h : t = ""
  · simp [textInsertEnd, h]
  · simp [textInsertEnd, h, notifyModified_filename]

theorem textInsertEnd_foundTags (t : String) (s : EditorState) :
    (textInsertEnd t s).foundTags = s.foundTags := by
  by_cases h : t = ""
  · simp [textInsertEnd, h]
  · simp [textInsertEnd, h, notifyModified_foundTags]

theorem textInsertEnd_modified (t : String) (s : EditorState) (ht : t ≠ "")
    (hw : s.widgetModified = false) : (textInsertEnd t s).modified = false := by
  rw [textInsertEnd, if_neg ht]
  exact notifyModified_modified _ hw

theorem append_newline_ne_empty (c : String) : c ++ "\n" ≠ "" := by
  intro h
  have h2 : (c ++ "\n").length = ("" : String).length := by rw [h]
  rw [String.length_append] at h2
  have h3 : ("\n" : String).length = 1 := rfl
  have h4 : ("" : String).length = 0 := rfl
  omega

theorem lookupFile_setFile (l : List (String × String)) (p v : String) :
    lookupFile (setFile l p v) p = some v := by
  induction l with
  | nil => simp [setFile, lookupFile]
  | cons hd tl ih =>
    obtain ⟨q, w⟩ := hd
    by_cases h : q = p
    · simp [setFile, lookupFile, h]
    · simp [setFile, lookupFile, h, ih]

theorem FS.read_store (fs : FS) (p v : String) : (fs.store p v).read p = some v :=
  lookupFile_setFile fs.files p v

theorem pyReplaceGo_no_occ (f r : List Char) (fuel : Nat) (hay : List Char)
    (h : occursSub hay f = false) : pyReplaceGo f r fuel hay = hay := by
  induction fuel generalizing hay with
  | zero => cases hay <;> rfl
  | succ n ih =>
    cases hay with
    | nil => rfl
    | cons c t =>
      have h2 : startsWithLit f (c :: t) = false ∧ occursSub t f = false := by
        simpa [occursSub] using h
      simp [pyReplaceGo, h2.1, ih t h2.2]

theorem pyReplace_no_occ (hay f r : String) (h : occursSub hay.data f.data = false) :
    pyReplace hay f r = hay := by
  unfold pyReplace
  rw [pyReplaceGo_no_occ f.data r.data hay.data.length hay.data h]

theorem startsWithCI_toLower (nd : List Char) :
    ∀ l : List Char, startsWithCI nd l = true →
      (l.take nd.length).map Char.toLower = nd.map Char.toLower := by
  induction nd with
  | nil => intro l _; simp
  | cons a as ih =>
    intro l h
    cases l with
    | nil => simp [startsWithCI] at h
    | cons b bs =>
      have h2 : (a.toLower == b.toLower) = true ∧ startsWithCI as bs = true := by
        simpa [startsWithCI] using h
      have hab : b.toLower = a.toLower := (eq_of_beq h2.1).symm
      simp [List.take, hab, ih bs h2.2]

theorem findOccsGo_mem (nd : List Char) :
    ∀ (fuel : Nat) (hay : List Char) (i a b : Nat),
      (a, b) ∈ findOccsGo nd fuel hay i →
      ∃ k, a = i + k ∧ b = a + nd.length ∧ startsWithCI nd (hay.drop k) = true := by
  intro fuel
  induction fuel with
  | zero =>
    intro hay i a b h
    cases hay <;> simp [findOccsGo] at h
  | succ n ih =>
    intro hay i a b h
    cases hay with
    | nil => simp [findOccsGo] at h
    | cons c t =>
      by_cases hm : startsWithCI nd (c :: t) = true
      · rw [findOccsGo, if_pos hm] at h
        rcases List.mem_cons.mp h with h1 | h1
        · have h2 : a = i ∧ b = i + nd.length := by simpa using h1
          refine ⟨0, by omega, by omega, ?_⟩
          simpa using hm
        · rcases ih _ _ _ _ h1 with ⟨k, hk1, hk2, hk3⟩
          by_cases hnd : nd = []
          · subst hnd
            exact ⟨k, by simpa using hk1, hk2, by simp [startsWithCI]⟩
          · have hlen : 1 ≤ nd.length := List.length_pos.mpr hnd
            refine ⟨nd.length + k, by omega, hk2, ?_⟩
            have hdrop : (c :: t).drop (nd.length + k) = (t.drop (nd.length - 1)).drop k := by
              rw [List.drop_drop]
              have h5 : nd.length + k = (nd.length - 1 + k) + 1 := by omega
              rw [h5, List.drop_succ_cons]
            rw [hdrop]
            exact hk3
      · rw [findOccsGo, if_neg hm] at h
        rcases ih _ _ _ _ h with ⟨k, hk1, hk2, hk3⟩
        exact ⟨k + 1, by omega, hk2, by simpa using hk3⟩

theorem findOccsGo_chain (nd : List Char) :
    ∀ (fuel : Nat) (hay : List Char) (i : Nat),
      List.Chain' (fun p q : Nat × Nat => p.2 ≤ q.1) (findOccsGo nd fuel hay i) := by
  intro fuel
  induction fuel with
  | zero => intro hay i; cases hay <;> simp [findOccsGo]
  | succ n ih =>
    intro hay i
    cases hay with
    | nil => simp [findOccsGo]
    | cons c t =>
      by_cases hm : startsWithCI nd (c :: t) = true
      · rw [findOccsGo, if_pos hm]
        rw [List.chain'_cons']
        refine ⟨?_, ih _ _⟩
        intro q hq
        obtain ⟨a, b⟩ := q
        have hq2 : (a, b) ∈ findOccsGo nd n (t.drop (nd.length - 1)) (i + nd.length) :=
          List.mem_of_mem_head? hq
        rcases findOccsGo_mem nd n _ _ a b hq2 with ⟨k, hk1, _, _⟩
        simp only
        omega
      · rw [findOccsGo, if_neg hm]
        exact ih _ _

theorem startsWithCI_nil_false (nd : List Char) (h : nd ≠ []) :
    startsWithCI nd [] = false := by
  cases nd with
  | nil => exact absurd rfl h
  | cons a as => rfl

theorem startsWithCI_of_toLower : ∀ (nd l : List Char),
    (l.take nd.length).map Char.toLower = nd.map Char.toLower → startsWithCI nd l = true := by
  intro nd
  induction nd with
  | nil => intro l _; rfl
  | cons a as ih =>
    intro l h
    cases l with
    | nil => simp at h
    | cons b bs =>
      simp only [List.length_cons, List.take_succ_cons, List.map_cons, List.cons.injEq] at h
      rw [startsWithCI, Bool.and_eq_true]
      exact ⟨beq_iff_eq.mpr h.1.symm, ih bs h.2⟩

theorem string_ne_empty_data (nd : String) (h : nd ≠ "") : nd.data ≠ [] := by
  intro hd
  apply h
  cases nd with
  | mk data =>
    have h2 : data = [] := hd
    subst h2
    rfl

theorem findOccsGo_complete (nd : List Char) (hnd : nd ≠ []) :
    ∀ (fuel : Nat) (hay : List Char) (i k : Nat), hay.length ≤ fuel →
      startsWithCI nd (hay.drop k) = true →
      ∃ p ∈ findOccsGo nd fuel hay i, p.1 ≤ i + k ∧ i + k < p.2 := by
  intro fuel
  induction fuel with
  | zero =>
    intro hay i k hlen hk
    have hnil : hay = [] := List.length_eq_zero.mp (Nat.le_zero.mp hlen)
    subst hnil
    rw [List.drop_nil, startsWithCI_nil_false nd hnd] at hk
    simp at hk
  | succ n ih =>
    intro hay i k hlen hk
    cases hay with
    | nil =>
      rw [List.drop_nil, startsWithCI_nil_false nd hnd] at hk
      simp at hk
    | cons c t =>
      have hlen1 : 1 ≤ nd.length := List.length_pos.mpr hnd
      have hlent : t.length ≤ n := by
        simp only [List.length_cons] at hlen
        omega
      by_cases hm : startsWithCI nd (c :: t) = true
      · rw [findOccsGo, if_pos hm]
        by_cases hk2 : k < nd.length
        · exact ⟨(i, i + nd.length), List.mem_cons_self _ _, by omega, by omega⟩
        · have hd : (c :: t).drop k = t.drop (k - 1) := by
            have hk1 : k = (k - 1) + 1 := by omega
            conv_lhs => rw [hk1]
            rw [List.drop_succ_cons]
          have hrec : startsWithCI nd ((t.drop (nd.length - 1)).drop (k - nd.length)) = true := by
            rw [List.drop_drop]
            have he : nd.length - 1 + (k - nd.length) = k - 1 := by omega
            rw [he]
            rw [hd] at hk
            exact hk
          have hlen2 : (t.drop (nd.length - 1)).length ≤ n := by
            rw [List.length_drop]
            omega
          rcases ih (t.drop (nd.length - 1)) (i + nd.length) (k - nd.length) hlen2 hrec
            with ⟨p, hp, hp1, hp2⟩
          exact ⟨p, List.mem_cons_of_mem _ hp, by omega, by omega⟩
      · rw [findOccsGo, if_neg hm]
        have hk0 : k ≠ 0 := by
          intro h0
          subst h0
          apply hm
          simpa using hk
        have hd : (c :: t).drop k = t.drop (k - 1) := by
          have hk1 : k = (k - 1) + 1 := by omega
          conv_lhs => rw [hk1]
          rw [List.drop_succ_cons]
        rw [hd] at hk
        rcases ih t (i + 1) (k - 1) hlent hk with ⟨p, hp, hp1, hp2⟩
        exact ⟨p, hp, by omega, by omega⟩

/-! ### The claims -/

/-- C1 (code behaviour at the failing input): after any user keystroke
that edits the buffer, self.modified is false once the event cascade
settles, because the rearm self.text.edit_modified(False) in
`_on_modified` generates a second <<Modified>> event whose handler run
copies the cleared flag back into self.modified.  The claim says the
flag becomes true after any character insertion or deletion; the code
leaves it false. -/
theorem C1_keystroke_leaves_modified_false :
    ∀ (nc : String) (tg : List (Nat × Nat)) (cu : Nat) (s : EditorState),
      s.widgetModified = false → (userEdit nc tg cu s).modified = false := by
  intro nc tg cu s h
  unfold userEdit
  exact notifyModified_modified _ h

/-- C1 witness: typing "a" into a fresh editor leaves self.modified false. -/
theorem C1_witness : (userEdit "a" [] 1 initState).modified = false :=
  C1_keystroke_leaves_modified_false "a" [] 1 initState rfl

/-- C2 counterexample: opening a file whose content is "a" and saving at
once stores "a\n" on disk, not the original bytes "a" -- text.get(1.0,
tk.END) appends the implicit final newline of the widget. -/
theorem C2_counterexample :
    openThenSave ⟨[("f", "a")], []⟩ "f" initState = some ⟨[("f", "a\n")], []⟩ ∧
    ("a\n" : String) ≠ "a" :=
  ⟨by decide, by decide⟩

/-- C2 amended: Open followed immediately by Save succeeds whenever the
read and the write succeed, and writes the original content with exactly
one newline appended. -/
theorem C2_open_save_appends_newline :
    ∀ (fs : FS) (p c : String) (s : EditorState),
      p ≠ "" → fs.read p = some c → p ∉ fs.failWrite →
      ∃ fs2, openThenSave fs p s = some fs2 ∧ fs2.read p = some (c ++ "\n") := by
  intro fs p c s hp hr hw
  have hc : (textInsertEnd c (textDeleteAll s)).content = c := by
    rw [textInsertEnd_content, textDeleteAll_content, String.empty_append]
  refine ⟨fs.store p (c ++ "\n"), ?_, FS.read_store fs p (c ++ "\n")⟩
  simp only [openThenSave, _open_file, hp, if_neg hp, hr]
  simp only [_save_file, _save_file_as, saveTo, FS.write, hw, if_neg hw, widgetText, hc]
  simp [hw]

/-- C2 witness: the amended round trip at a concrete file system. -/
theorem C2_witness :
    ∃ fs2, openThenSave ⟨[("f", "a")], ["g"]⟩ "f" initState = some fs2 ∧
      fs2.read "f" = some ("a" ++ "\n") :=
  C2_open_save_appends_newline ⟨[("f", "a")], ["g"]⟩ "f" "a" initState
    (by decide) (by decide) (by decide)

/-- C3 counterexample: Replace("foo","bar") on buffer content
"foofoo baz foo" does not yield "barbar baz bar": the round trip through
text.get(1.0, tk.END) and text.insert appends the implicit final
newline to the stored content. -/
theorem C3_counterexample :
    (_replace (some "foo") (some "bar") exampleReplaceState).content ≠ "barbar baz bar" := by
  decide

/-- C3 amended: Replace performs the literal global substring
replacement of Python str.replace over the widget text (buffer content
plus the implicit final newline) and stores the result as the new
content; on "foofoo baz foo" it yields "barbar baz bar\n". -/
theorem C3_replace_global :
    (∀ (s : EditorState) (f r : String), f ≠ "" →
        (_replace (some f) (some r) s).content = pyReplace (widgetText s) f r) ∧
    (_replace (some "foo") (some "bar") exampleReplaceState).content = "barbar baz bar\n" := by
  refine ⟨?_, by decide⟩
  intro s f r hf
  simp [_replace, hf, textInsertEnd_content, textDeleteAll_content, String.empty_append]

/-- C3 witness: the general conjunct applied at a fresh editor. -/
theorem C3_witness :
    (_replace (some "x") (some "y") initState).content = pyReplace (widgetText initState) "x" "y" :=
  C3_replace_global.1 initState "x" "y" (by decide)

/-- C4: for every buffer and every non-empty term, the Find loop tags
exactly the case-insensitive occurrences under its left-to-right
non-overlapping scan: (soundness) every tagged range spans exactly the
length of the term and matches it under Char.toLower; (completeness)
every position at which the term occurs case-insensitively lies inside
some tagged range -- no occurrence is skipped, an occurrence is absorbed
only by the earlier overlapping match the search resumed after;
(non-overlap) consecutive tagged ranges never overlap; and
Find("abc") on content "xabcxabc" tags exactly the two ranges at the two
occurrence offsets.  Together the three general conjuncts pin the tag
list on every input: it is the greedy left-to-right cover of all
case-insensitive occurrences. -/
theorem C4_find_highlights :
    (∀ (hay nd : String) (a b : Nat), (a, b) ∈ findOccs hay nd →
        b = a + nd.length ∧
        ((hay.data.drop a).take nd.length).map Char.toLower = nd.data.map Char.toLower) ∧
    (∀ (hay nd : String) (k : Nat), nd ≠ "" →
        ((hay.data.drop k).take nd.length).map Char.toLower = nd.data.map Char.toLower →
        ∃ p ∈ findOccs hay nd, p.1 ≤ k ∧ k < p.2) ∧
    (∀ hay nd : String, List.Chain' (fun p q : Nat × Nat => p.2 ≤ q.1) (findOccs hay nd)) ∧
    (_find (some "abc") exampleFindState).foundTags = [(1, 4), (5, 8)] := by
  refine ⟨?_, ?_, ?_, by decide⟩
  · intro hay nd a b hmem
    rcases findOccsGo_mem nd.data hay.data.length hay.data 0 a b hmem with ⟨k, hk1, hk2, hk3⟩
    have hk0 : a = k := by omega
    subst hk0
    exact ⟨hk2, startsWithCI_toLower nd.data (hay.data.drop a) hk3⟩
  · intro hay nd k hnd hocc
    have hnd2 : nd.data ≠ [] := string_ne_empty_data nd hnd
    have hCI : startsWithCI nd.data (hay.data.drop k) = true :=
      startsWithCI_of_toLower nd.data (hay.data.drop k) hocc
    have hall := findOccsGo_complete nd.data hnd2 hay.data.length hay.data 0 k
      (Nat.le_refl _) hCI
    simpa [findOccs] using hall
  · intro hay nd
    exact findOccsGo_chain nd.data hay.data.length hay.data 0

/-- C4 witness: the soundness conjunct applied at the concrete match
(1, 4) of "abc" in "xabcxabc\n", and the completeness conjunct applied
at the concrete occurrence offset 5. -/
theorem C4_witness :
    (4 = 1 + ("abc" : String).length ∧
      ((("xabcxabc\n" : String).data.drop 1).take ("abc" : String).length).map Char.toLower
        = ("abc" : String).data.map Char.toLower) ∧
    (∃ p ∈ findOccs "xabcxabc\n" "abc", p.1 ≤ 5 ∧ 5 < p.2) :=
  ⟨C4_find_highlights.1 "xabcxabc\n" "abc" 1 4 (by decide),
    C4_find_highlights.2.1 "xabcxabc\n" "abc" 5 (by decide) (by decide)⟩

/-- C5: every dialog-driven operation is a no-op on the whole editor
state (and the file system) when the prompt is dismissed or answered
with empty input: Open with no or empty path, Save-As with no or empty
path, Save with no current path and a dismissed Save-As prompt, Find
with no or empty term, Replace with a dismissed or empty find prompt or
a dismissed replace prompt, and Goto-line with no answer or the falsy
answer 0. -/
theorem C5_cancel_noop :
    (∀ (fs : FS) (s : EditorState), _open_file fs none s = .ok s) ∧
    (∀ (fs : FS) (s : EditorState), _open_file fs (some "") s = .ok s) ∧
    (∀ (fs : FS) (s : EditorState), _save_file_as fs none s = .ok (fs, s)) ∧
    (∀ (fs : FS) (s : EditorState), _save_file_as fs (some "") s = .ok (fs, s)) ∧
    (∀ (fs : FS) (s : EditorState), s.filename = none → _save_file fs none s = .ok (fs, s)) ∧
    (∀ s : EditorState, _find none s = s) ∧
    (∀ s : EditorState, _find (some "") s = s) ∧
    (∀ (r : Option String) (s : EditorState), _replace none r s = s) ∧
    (∀ (r : Option String) (s : EditorState), _replace (some "") r s = s) ∧
    (∀ (f : String) (s : EditorState), _replace (some f) none s = s) ∧
    (∀ s : EditorState, _goto_line none s = s) ∧
    (∀ s : EditorState, _goto_line (some 0) s = s) := by
  refine ⟨fun fs s => rfl, fun fs s => by simp [_open_file], fun fs s => rfl,
    fun fs s => by simp [_save_file_as], fun fs s h => ?_, fun s => rfl,
    fun s => by simp [_find], fun r s => by cases r <;> rfl,
    fun r s => by cases r <;> simp [_replace], fun f s => rfl, fun s => rfl,
    fun s => by simp [_goto_line]⟩
  rw [_save_file, h]
  rfl

/-- C5 witness: Save with no current path and a dismissed Save-As
dialog leaves a concrete empty file system and the fresh editor state
unchanged. -/
theorem C5_witness :
    _save_file ⟨[], []⟩ none initState = .ok (⟨[], []⟩, initState) :=
  C5_cancel_noop.2.2.2.2.1 ⟨[], []⟩ initState rfl

/-- C6: after `_new_file` the buffer is empty, the current path is
unset, and the modified flag is false, whatever the prior state. -/
theorem C6_new_file :
    ∀ s : EditorState,
      (_new_file s).content = "" ∧ (_new_file s).filename = none ∧
      (_new_file s).modified = false := by
  intro s
  refine ⟨?_, ?_, rfl⟩
  · show (textDeleteAll { s with filename := none }).content = ""
    exact textDeleteAll_content _
  · show (textDeleteAll { s with filename := none }).filename = none
    rw [textDeleteAll_filename]

/-- C7: Save with a known current path writes the full buffer text as
reported by text.get(1.0, tk.END) to that path and clears the modified
flag, touching nothing else; with no current path Save is exactly
Save-As; and Save-As on a selected destination adopts it as the current
path and then performs the known-path Save to it. -/
theorem C7_save :
    (∀ (fs : FS) (dlg : Option String) (s : EditorState) (p : String),
        s.filename = some p → p ∉ fs.failWrite →
        _save_file fs dlg s = .ok (fs.store p (widgetText s), { s with modified := false })) ∧
    (∀ (fs : FS) (dlg : Option String) (s : EditorState),
        s.filename = none → _save_file fs dlg s = _save_file_as fs dlg s) ∧
    (∀ (fs : FS) (p : String) (s : EditorState), p ≠ "" →
        _save_file_as fs (some p) s = _save_file fs (some p) { s with filename := some p }) := by
  refine ⟨?_, ?_, ?_⟩
  · intro fs dlg s p h hw
    obtain ⟨c, fn, m, w, tg, cu⟩ := s
    simp only [EditorState.filename] at h
    subst h
    simp [_save_file, saveTo, FS.write, hw]
  · intro fs dlg s h
    obtain ⟨c, fn, m, w, tg, cu⟩ := s
    simp only [EditorState.filename] at h
    subst h
    rfl
  · intro fs p s h
    unfold _save_file_as _save_file
    simp [h]

/-- C7 witness: Save on an editor whose path is "f" against an empty
file system stores the widget text at "f" and clears the flag. -/
theorem C7_witness :
    _save_file ⟨[], []⟩ none exampleNamedState =
      .ok ((⟨[], []⟩ : FS).store "f" (widgetText exampleNamedState),
        { exampleNamedState with modified := false }) :=
  C7_save.1 ⟨[], []⟩ none exampleNamedState "f" rfl (by decide)

/-- C8: Open with a chosen path raises exactly when the file read (or
decode) fails, and Save raises exactly when the file write (or encode)
fails -- both with a known current path and through the Save-As branch;
the model returns the error unhandled, as the program lets the exception
propagate out of the handler. -/
theorem C8_uncaught_errors :
    (∀ (fs : FS) (p : String) (s : EditorState), p ≠ "" →
        (isErr (_open_file fs (some p) s) = true ↔ fs.read p = none)) ∧
    (∀ (fs : FS) (dlg : Option String) (s : EditorState) (p : String), s.filename = some p →
        (isErr (_save_file fs dlg s) = true ↔ p ∈ fs.failWrite)) ∧
    (∀ (fs : FS) (p : String) (s : EditorState), p ≠ "" → s.filename = none →
        (isErr (_save_file fs (some p) s) = true ↔ p ∈ fs.failWrite)) := by
  refine ⟨?_, ?_, ?_⟩
  · intro fs p s hp
    cases hfs : fs.read p <;> simp [_open_file, hp, hfs, isErr]
  · intro fs dlg s p h
    obtain ⟨c, fn, m, w, tg, cu⟩ := s
    simp only [EditorState.filename] at h
    subst h
    by_cases hw : p ∈ fs.failWrite <;> simp [_save_file, saveTo, FS.write, hw, isErr]
  · intro fs p s hp h
    obtain ⟨c, fn, m, w, tg, cu⟩ := s
    simp only [EditorState.filename] at h
    subst h
    by_cases hw : p ∈ fs.failWrite <;>
      simp [_save_file, _save_file_as, hp, saveTo, FS.write, hw, isErr]

/-- C8 witness: opening a missing file raises, at a concrete file
system. -/
theorem C8_witness :
    isErr (_open_file ⟨[], []⟩ (some "f") initState) = true ↔ FS.read ⟨[], []⟩ "f" = none :=
  C8_uncaught_errors.1 ⟨[], []⟩ "f" initState (by decide)

/-- C9 counterexample: with find term "zzz" absent from the buffer
"hello", Replace still changes the text (the widget text round trip
appends the implicit final newline) and leaves self.modified false (the
<<Modified>> handler rearm clears it), against the claim that the text
is unchanged and the modified flag set. -/
theorem C9_counterexample :
    occursSub (widgetText exampleNoOccState).data ("zzz" : String).data = false ∧
    (_replace (some "zzz") (some "q") exampleNoOccState).content ≠ exampleNoOccState.content ∧
    (_replace (some "zzz") (some "q") exampleNoOccState).modified = false :=
  ⟨by decide, by decide, by decide⟩

/-- C9 amended: once both prompts are answered, Replace rewrites the
buffer even when the find term does not occur in the widget text: the
content becomes the old content with one newline appended, the "found"
highlight ranges are removed, and the modification events fire -- with
self.modified ending false because of the handler rearm. -/
theorem C9_replace_rewrites :
    ∀ (s : EditorState) (f r : String),
      f ≠ "" → s.content ≠ "" → s.widgetModified = false →
      occursSub (widgetText s).data f.data = false →
      (_replace (some f) (some r) s).content = s.content ++ "\n" ∧
      (_replace (some f) (some r) s).foundTags = [] ∧
      (_replace (some f) (some r) s).modified = false := by
  intro s f r hf hc hw hocc
  have hrep : pyReplace (widgetText s) f r = widgetText s := pyReplace_no_occ _ f r hocc
  have hne : pyReplace (widgetText s) f r ≠ "" := by
    rw [hrep]
    exact append_newline_ne_empty s.content
  have hstep : _replace (some f) (some r) s =
      textInsertEnd (pyReplace (widgetText s) f r) (textDeleteAll s) := by
    simp [_replace, hf]
  refine ⟨?_, ?_, ?_⟩
  · rw [hstep, textInsertEnd_content, textDeleteAll_content, String.empty_append, hrep,
      widgetText]
  · rw [hstep, textInsertEnd_foundTags, textDeleteAll_foundTags s hc]
  · rw [hstep]
    exact textInsertEnd_modified _ _ hne (textDeleteAll_widgetModified s hw)

/-- C9 witness: the amended behaviour at the concrete buffer "hello"
with absent term "zzz". -/
theorem C9_witness :
    (_replace (some "zzz") (some "q") exampleNoOccState).content =
      exampleNoOccState.content ++ "\n" ∧
    (_replace (some "zzz") (some "q") exampleNoOccState).foundTags = [] ∧
    (_replace (some "zzz") (some "q") exampleNoOccState).modified = false :=
  C9_replace_rewrites exampleNoOccState "zzz" "q" (by decide) (by decide) rfl (by decide)

/-- C10: the Control-q binding calls self.quit() and nothing else: for
any state, in particular one with unsaved modifications, the step leaves
the file system untouched (nothing is written), leaves the editor state
untouched (no prompt, no save), and only stops the main loop. -/
theorem C10_quit_discards_unsaved :
    ∀ (fs : FS) (s : EditorState), s.modified = true →
      step fs s Event.ctrlQ = .ok (fs, s, false) := by
  intro fs s _
  rfl

/-- C10 witness: quitting a modified fresh editor changes neither the
empty file system nor the state. -/
theorem C10_witness :
    step ⟨[], []⟩ { initState with modified := true } Event.ctrlQ =
      .ok (⟨[], []⟩, { initState with modified := true }, false) :=
  C10_quit_discards_unsaved ⟨[], []⟩ { initState with modified := true } rfl
